import Mathlib

/-!
Verification development for the ProteinInteraPredict data pipeline.

The Python sources embedded here are `DatasetClass.py` (string-level
masking with fixed-length padding and a joint-max collator) and
`pre_training_bert_model_on_new_tokens.py` (id-level three-way masking
with a per-channel `pad_sequence` collator).  The external HuggingFace
tokenizer is modelled as a capability record; BERT-style encoding with
special tokens (`[CLS]`/`[SEP]` insertion, truncation to `max_length`,
right-padding with the pad id) is modelled explicitly.  Randomness is
modelled by explicit streams of uniform draws in `[0,1)` (one per
token position), exactly as `random.random()` / `torch.rand` are
consumed by the source.
-/

namespace ProteinInteraPredict

/-- Model of the HuggingFace tokenizer capability the pipeline consumes:
tokenize-to-strings, single-token id conversion, the mask token and the
special-token ids used by BERT-style encoding.  `pad_token_id` is 0 for
BERT vocabularies. -/
structure Tokenizer where
  tokenize : String → List String
  convert_tokens_to_ids : String → Int
  mask_token : String
  vocab_size : Nat
  cls_token_id : Int
  sep_token_id : Int
  pad_token_id : Int

/-- Elementwise map that also passes the absolute position, starting at
index `k`.  Used to model per-position random decisions (`random.random()`
per token, `torch.rand` per tensor entry). -/
def mapFrom (f : Nat → α → β) : Nat → List α → List β
  | _, [] => []
  | i, a :: as => f i a :: mapFrom f (i + 1) as

/-- Model of a HuggingFace `__call__`/`encode_plus` on a pre-split token
list with `add_special_tokens=True`, `truncation=True` and
`padding='max_length'`: keep the first `max_length - 2` tokens, wrap in
`[CLS]`/`[SEP]`, right-pad ids with the pad id and the attention mask
with 0 up to `max_length`. -/
def encode_with_specials (tok : Tokenizer) (max_length : Nat) (tokens : List String) :
    List Int × List Int :=
  let kept := tokens.take (max_length - 2)
  let ids := tok.cls_token_id :: (kept.map tok.convert_tokens_to_ids ++ [tok.sep_token_id])
  (ids ++ List.replicate (max_length - ids.length) tok.pad_token_id,
   List.replicate ids.length 1 ++ List.replicate (max_length - ids.length) 0)

/-- A per-example encoded dictionary: channel-qualified key to tensor,
as produced by `__getitem__`. -/
abbrev Ex := List (String × List Int)

/-- Python `dict` / pandas row lookup on an association list. -/
def findVal (k : String) : List (String × α) → Option α
  | [] => none
  | (k2, v) :: rest => if k = k2 then some v else findVal k rest

/-- Python `item[key]`: the value, or a `KeyError`. -/
def getKey (item : Ex) (k : String) : Except String (List Int) :=
  match findVal k item with
  | some v => Except.ok v
  | none => Except.error "KeyError"

/-- Right-padding of one tensor to length `m` with a fill value, the
shape shared by `torch.cat([v, torch.full((m - len(v),), fill)])` and by
`pad_sequence`'s padding of one row. -/
def pad_to (v : List Int) (m : Nat) (fill : Int) : List Int :=
  v ++ List.replicate (m - v.length) fill

/-- Bool test that `nd` is an initial segment of the second list. -/
def startsWithChars : List Char → List Char → Bool
  | [], _ => true
  | _ :: _, [] => false
  | a :: as, b :: bs => (a == b) && startsWithChars as bs

/-- Bool test that `nd` occurs contiguously in the second list. -/
def hasSubChars (nd : List Char) : List Char → Bool
  | [] => startsWithChars nd []
  | c :: cs => startsWithChars nd (c :: cs) || hasSubChars nd cs

/-- Python's `needle in haystack` on strings. -/
def contains_sub (needle hay : String) : Bool :=
  hasSubChars needle.toList hay.toList

/-- One row of the pandas dataframe: column name to string value. -/
abbrev Row := List (String × String)

/-- The tabular data source. -/
structure DataFrame where
  rows : List Row

/-- Python `row['col']`: the value, or a `KeyError`. -/
def getCol (row : Row) (c : String) : Except String String :=
  match findVal c row with
  | some v => Except.ok v
  | none => Except.error "KeyError"

/-- The f-string `f"[ENTITY1] {A} [SEP] [ENTITY2] {B}"` used by both
dataset classes to render a pair into one sequence. -/
def global_seq_of (a b : String) : String :=
  "[ENTITY1] " ++ a ++ " [SEP] [ENTITY2] " ++ b

namespace DatasetClass

/-- `ProteinInteractionDataset` of `DatasetClass.py`: the constructor
body only stores its arguments. -/
structure ProteinInteractionDataset where
  dataframe : DataFrame
  tokenizer : Tokenizer
  max_length : Nat
  mask_probability : ℚ

/-- `__init__` of `DatasetClass.py`.  Its body is four attribute
assignments, so it is modelled as an `Except` that always succeeds. -/
def init (dataframe : DataFrame) (tokenizer : Tokenizer) (max_length : Nat)
    (mask_probability : ℚ) : Except String ProteinInteractionDataset :=
  Except.ok ⟨dataframe, tokenizer, max_length, mask_probability⟩

/-- `tokenize_sequence` of `DatasetClass.py`: `encode_plus` with
special tokens, `padding='max_length'` and `truncation=True`. -/
def tokenize_sequence (tok : Tokenizer) (max_length : Nat) (sequence : String) :
    List Int × List Int :=
  encode_with_specials tok max_length (tok.tokenize sequence)

/-- The masked token list built by the `for token in tokens` loop of
`mask_and_tokenize_sequence`: position `i` is replaced by the mask token
exactly when `random.random() < mask_probability`, i.e. `draws i < p`. -/
def masked_tokens_of (tok : Tokenizer) (p : ℚ) (draws : Nat → ℚ) (tokens : List String) :
    List String :=
  mapFrom (fun i t => if draws i < p then tok.mask_token else t) 0 tokens

/-- The labels list built by the same loop: the original token id where
masked, the sentinel −100 elsewhere. -/
def labels_of (tok : Tokenizer) (p : ℚ) (draws : Nat → ℚ) (tokens : List String) :
    List Int :=
  mapFrom (fun i t => if draws i < p then tok.convert_tokens_to_ids t else -100) 0 tokens

/-- `mask_and_tokenize_sequence` of `DatasetClass.py`: tokenize to
strings, take the per-token masking decisions, re-encode the masked
token list with fixed-length padding/truncation to `max_length`, and
extend the labels by `[-100] * (max_length - len(labels))` (an empty
extension when the token count already exceeds `max_length`). -/
def mask_and_tokenize_sequence (tok : Tokenizer) (max_length : Nat) (p : ℚ)
    (draws : Nat → ℚ) (sequence : String) : List Int × List Int × List Int :=
  let tokens := tok.tokenize sequence
  let labels := labels_of tok p draws tokens
  let encoded := encode_with_specials tok max_length (masked_tokens_of tok p draws tokens)
  (encoded.1, encoded.2, labels ++ List.replicate (max_length - labels.length) (-100))

/-- The dictionary `__getitem__` returns, given the four column values
of the selected row. -/
def item_of (tok : Tokenizer) (max_length : Nat) (p : ℚ) (draws : Nat → ℚ)
    (a b ma mb : String) : Ex :=
  let g := tokenize_sequence tok max_length (global_seq_of a b)
  let l := mask_and_tokenize_sequence tok max_length p draws (global_seq_of ma mb)
  [("input_ids_global", g.1), ("attention_mask_global", g.2),
   ("input_ids_local", l.1), ("attention_mask_local", l.2.1),
   ("labels_local", l.2.2)]

/-- `__getitem__` of `DatasetClass.py` on one row: the four column
accesses (each a potential `KeyError`), then the tokenized dictionary. -/
def getitem (tok : Tokenizer) (max_length : Nat) (p : ℚ) (draws : Nat → ℚ)
    (row : Row) : Except String Ex := do
  let a ← getCol row "Sequence_A"
  let b ← getCol row "Sequence_B"
  let ma ← getCol row "masked_sequence_A"
  let mb ← getCol row "masked_sequence_B"
  pure (item_of tok max_length p draws a b ma mb)

/-- `__getitem__` by dataset and index (`self.dataframe.iloc[idx]`). -/
def dataset_getitem (ds : ProteinInteractionDataset) (draws : Nat → ℚ) (idx : Nat) :
    Except String Ex := do
  let row ← match ds.dataframe.rows[idx]? with
    | some r => Except.ok r
    | none => Except.error "IndexError"
  getitem ds.tokenizer ds.max_length ds.mask_probability draws row

/-- The padding fill of `collate_fn` in `DatasetClass.py`:
`0 if 'mask' in key or 'input_ids' in key else -100`. -/
def pad_fill (key : String) : Int :=
  if contains_sub "mask" key || contains_sub "input_ids" key then 0 else -100

/-- The fixed key list `collate_fn` iterates (note: it contains
`labels_global` and omits `labels_local`). -/
def batch_keys : List String :=
  ["input_ids_global", "attention_mask_global", "labels_global",
   "input_ids_local", "attention_mask_local"]

/-- The generator expression computing the joint batch max:
`max(max(len(item['input_ids_global']), len(item['input_ids_local'])) for item in batch)`.
`KeyError` when an item lacks either key; Python's `max` on an empty
iterable is a `ValueError`. -/
def pairMaxLens : List Ex → Except String (List Nat)
  | [] => Except.ok []
  | item :: rest => do
    let g ← getKey item "input_ids_global"
    let l ← getKey item "input_ids_local"
    let ns ← pairMaxLens rest
    pure (max g.length l.length :: ns)

/-- The joint batch-wide max length of `collate_fn` in `DatasetClass.py`. -/
def dc_max_length (batch : List Ex) : Except String Nat := do
  let lens ← pairMaxLens batch
  match lens with
  | [] => Except.error "ValueError"
  | x :: xs => Except.ok (xs.foldl max x)

/-- The list comprehension padding one key across the batch.
`torch.full` with a negative size (a tensor longer than the joint max)
is a `RuntimeError`. -/
def collectKey (key : String) (m : Nat) : List Ex → Except String (List (List Int))
  | [] => Except.ok []
  | item :: rest => do
    let v ← getKey item key
    if v.length ≤ m then do
      let vs ← collectKey key m rest
      pure (pad_to v m (pad_fill key) :: vs)
    else Except.error "RuntimeError"

/-- The `for key in [...]` loop of `collate_fn` in `DatasetClass.py`. -/
def collateKeys (batch : List Ex) (m : Nat) :
    List String → Except String (List (String × List (List Int)))
  | [] => Except.ok []
  | key :: ks => do
    let rows ← collectKey key m batch
    let rest ← collateKeys batch m ks
    pure ((key, rows) :: rest)

/-- `collate_fn` of `DatasetClass.py`: one joint max over the global
and local input-id lengths, then every key in the fixed list padded to
that max. -/
def collate_fn (batch : List Ex) : Except String (List (String × List (List Int))) := do
  let m ← dc_max_length batch
  collateKeys batch m batch_keys

end DatasetClass

namespace Pretraining

/-- `tokenize_sequence` of the pre-training file: `encode_plus` with
special tokens and `padding=False`.  (Its `truncation=True` without a
`max_length` bounds only at the model maximum, which no pipeline input
reaches; no fixed-length padding is applied.) -/
def tokenize_sequence (tok : Tokenizer) (sequence : String) : List Int × List Int :=
  let ids := tok.cls_token_id :: (tok.tokenize sequence).map tok.convert_tokens_to_ids
  (ids ++ [tok.sep_token_id],
   List.replicate (ids ++ [tok.sep_token_id]).length 1)

/-- `random_mask_sequence` of the pre-training file: id-level BERT-style
masking.  `r1` models the `torch.rand` selection draw, `r2` the 80%
mask-vs-random draw, `rt` the `torch.randint(2, vocab_size, ...)` random
replacement ids.  A position is selected when `r1 i < p`; a selected
position keeps its original id in `labels`, is replaced by the mask id
when `r2 i < 0.8`, and by `rt i` otherwise; unselected positions are
unchanged with label −100.  The attention mask is all ones and no
truncation is applied. -/
def random_mask_sequence (tok : Tokenizer) (p : ℚ) (r1 r2 : Nat → ℚ) (rt : Nat → Int)
    (sequence : String) : List Int × List Int × List Int :=
  let input_ids := (tok.tokenize sequence).map tok.convert_tokens_to_ids
  let labels := mapFrom (fun i v => if r1 i < p then v else -100) 0 input_ids
  let out := mapFrom
    (fun i v =>
      if r1 i < p then
        (if r2 i < (4 : ℚ)/5 then tok.convert_tokens_to_ids tok.mask_token else rt i)
      else v) 0 input_ids
  (out, List.replicate input_ids.length 1, labels)

/-- The two channel modes the collator iterates. -/
def collate_modes : List String := ["global_masked", "local"]

/-- The per-call max of `torch.nn.utils.rnn.pad_sequence`. -/
def max_len (seqs : List (List Int)) : Nat :=
  (seqs.map List.length).foldr max 0

/-- `pad_sequence(seqs, batch_first=True, padding_value=fill)`: each row
right-padded to the max length within this call. -/
def pad_sequence (seqs : List (List Int)) (fill : Int) : List (List Int) :=
  seqs.map (fun v => pad_to v (max_len seqs) fill)

/-- The `if labels:` guard of the collator's mode loop: the labels
channel is stacked only when some example contributed it. -/
def labels_part (labels : List (List Int)) (mode : String) :
    List (String × List (List Int)) :=
  if labels.isEmpty then [] else [("labels_" ++ mode, pad_sequence labels (-100))]

/-- One iteration of the collator's mode loop.  Channels are collected
over only the items containing the key (`for item in batch if key in item`);
an empty `input_ids` list skips the mode entirely; `pad_sequence` on an
empty tensor list (possible only for a mismatched attention list) is a
`RuntimeError`; labels are emitted only when present. -/
def collate_mode (batch : List Ex) (mode : String) :
    Except String (List (String × List (List Int))) :=
  let input_ids := batch.filterMap (fun item => findVal ("input_ids_" ++ mode) item)
  let attention_masks := batch.filterMap (fun item => findVal ("attention_mask_" ++ mode) item)
  let labels := batch.filterMap (fun item => findVal ("labels_" ++ mode) item)
  if input_ids.isEmpty then Except.ok []
  else if attention_masks.isEmpty then Except.error "RuntimeError"
  else Except.ok
    ([("input_ids_" ++ mode, pad_sequence input_ids 0),
      ("attention_mask_" ++ mode, pad_sequence attention_masks 0)]
     ++ labels_part labels mode)

/-- `collate_fn` of the pre-training file: the two modes in order,
their channel outputs concatenated. -/
def collate_fn (batch : List Ex) : Except String (List (String × List (List Int))) := do
  let g ← collate_mode batch "global_masked"
  let l ← collate_mode batch "local"
  pure (g ++ l)

/-- The padding value of the pre-training collator as a function of the
emitted key: −100 for label channels, 0 for id and mask channels. -/
def pt_fill (key : String) : Int :=
  if contains_sub "labels" key then -100 else 0

end Pretraining

/-- Grouping a character list into space-separated words, for the toy
tokenizer used in concrete witnesses. -/
def splitWords (cs : List Char) : List (List Char) :=
  cs.foldr
    (fun c acc =>
      if c = ' ' then [] :: acc
      else
        match acc with
        | [] => [[c]]
        | w :: ws => (c :: w) :: ws)
    []

/-- A small concrete vocabulary for witness computations. -/
def toyConvert (t : String) : Int :=
  if t = "[PAD]" then 0
  else if t = "[UNK]" then 1
  else if t = "[CLS]" then 2
  else if t = "[SEP]" then 3
  else if t = "[MASK]" then 4
  else if t = "[ENTITY1]" then 5
  else if t = "[ENTITY2]" then 6
  else if t = "A" then 10
  else if t = "B" then 11
  else if t = "C" then 12
  else if t = "D" then 13
  else if t = "M" then 14
  else if t = "K" then 15
  else 25

/-- A concrete instance of the tokenizer capability: whitespace
tokenization over the toy vocabulary. -/
def toyTok : Tokenizer where
  tokenize := fun s => ((splitWords s.toList).filter (fun w => !w.isEmpty)).map List.asString
  convert_tokens_to_ids := toyConvert
  mask_token := "[MASK]"
  vocab_size := 30
  cls_token_id := 2
  sep_token_id := 3
  pad_token_id := 0

/-- Length of an indexed map. -/
theorem mapFrom_length (f : Nat → α → β) (k : Nat) (l : List α) :
    (mapFrom f k l).length = l.length := by
  induction l generalizing k with
  | nil => rfl
  | cons a as ih => simp [mapFrom, ih]

/-- Pointwise description of an indexed map. -/
theorem mapFrom_getElem? (f : Nat → α → β) (k : Nat) (l : List α) (i : Nat) :
    (mapFrom f k l)[i]? = Option.map (f (k + i)) l[i]? := by
  induction l generalizing k i with
  | nil => simp [mapFrom]
  | cons a as ih =>
    cases i with
    | zero => simp [mapFrom]
    | succ j =>
      have h : k + 1 + j = k + (j + 1) := by omega
      simpa [mapFrom, h] using ih (k + 1) j

/-- An indexed map whose body is the identity everywhere. -/
theorem mapFrom_eq_self {f : Nat → α → α} (h : ∀ i a, f i a = a) (k : Nat) (l : List α) :
    mapFrom f k l = l := by
  induction l generalizing k with
  | nil => rfl
  | cons a as ih => simp [mapFrom, h, ih]

/-- An indexed map whose body is constant everywhere. -/
theorem mapFrom_eq_replicate {f : Nat → α → β} {c : β} (h : ∀ i a, f i a = c)
    (k : Nat) (l : List α) : mapFrom f k l = List.replicate l.length c := by
  induction l generalizing k with
  | nil => rfl
  | cons a as ih => simp [mapFrom, h, ih, List.replicate_succ]

/-- Length of a right-padded tensor. -/
theorem pad_to_length (v : List Int) (m : Nat) (fill : Int) (h : v.length ≤ m) :
    (pad_to v m fill).length = m := by
  simp [pad_to]
  omega

/-- A padded tensor agrees with its source below the source length. -/
theorem pad_to_getElem?_left (v : List Int) (m : Nat) (fill : Int) (i : Nat)
    (h : i < v.length) : (pad_to v m fill)[i]? = v[i]? := by
  simp [pad_to, List.getElem?_append, h]

/-- Every position of the padded region holds the fill value. -/
theorem pad_to_getElem?_fill (v : List Int) (m : Nat) (fill : Int) (i : Nat)
    (h1 : v.length ≤ i) (h2 : i < m) : (pad_to v m fill)[i]? = some fill := by
  rw [pad_to, List.getElem?_append_right h1, List.getElem?_replicate, if_pos (by omega)]

/-- Fixed-length encoding: the id tensor has length exactly `max_length`. -/
theorem encode_ids_length (tok : Tokenizer) (ml : Nat) (ts : List String) (h : 2 ≤ ml) :
    (encode_with_specials tok ml ts).1.length = ml := by
  simp [encode_with_specials, List.length_take]
  omega

/-- Fixed-length encoding: the attention mask has length exactly `max_length`. -/
theorem encode_mask_length (tok : Tokenizer) (ml : Nat) (ts : List String) (h : 2 ≤ ml) :
    (encode_with_specials tok ml ts).2.length = ml := by
  simp [encode_with_specials, List.length_take]
  omega

/-- Below the truncation bound, position `i + 1` of the encoded ids is
the id of input token `i` (shifted once by the inserted `[CLS]`). -/
theorem encode_ids_getElem?_succ (tok : Tokenizer) (ml : Nat) (ts : List String)
    (i : Nat) (h1 : i < ts.length) (h2 : i < ml - 2) :
    (encode_with_specials tok ml ts).1[i + 1]? =
      Option.map tok.convert_tokens_to_ids ts[i]? := by
  have hk : i < (ts.take (ml - 2)).length := by
    simp [List.length_take]
    omega
  simp only [encode_with_specials]
  rw [List.getElem?_append, if_pos (by simp [List.length_take]; omega),
    List.getElem?_cons_succ, List.getElem?_append, if_pos (by simpa using hk),
    List.getElem?_map, List.getElem?_take, if_pos h2]

namespace DatasetClass

/-- The masking loop preserves the token count. -/
theorem masked_tokens_of_length (tok : Tokenizer) (p : ℚ) (draws : Nat → ℚ)
    (tokens : List String) : (masked_tokens_of tok p draws tokens).length = tokens.length :=
  mapFrom_length _ 0 tokens

/-- The labels loop emits one label per token. -/
theorem labels_of_length (tok : Tokenizer) (p : ℚ) (draws : Nat → ℚ)
    (tokens : List String) : (labels_of tok p draws tokens).length = tokens.length :=
  mapFrom_length _ 0 tokens

/-- Pointwise content of the masked token list. -/
theorem masked_tokens_of_getElem? (tok : Tokenizer) (p : ℚ) (draws : Nat → ℚ)
    (tokens : List String) (i : Nat) :
    (masked_tokens_of tok p draws tokens)[i]? =
      Option.map (fun t => if draws i < p then tok.mask_token else t) tokens[i]? := by
  simpa using mapFrom_getElem? _ 0 tokens i

/-- Pointwise content of the per-token labels. -/
theorem labels_of_getElem? (tok : Tokenizer) (p : ℚ) (draws : Nat → ℚ)
    (tokens : List String) (i : Nat) :
    (labels_of tok p draws tokens)[i]? =
      Option.map (fun t => if draws i < p then tok.convert_tokens_to_ids t else -100)
        tokens[i]? := by
  simpa using mapFrom_getElem? _ 0 tokens i

/-- A position indexed by `some` is in range. -/
theorem lt_length_of_getElem?_some {l : List α} {i : Nat} {a : α}
    (h : l[i]? = some a) : i < l.length := by
  by_contra hcon
  rw [List.getElem?_eq_none (by omega)] at h
  cases h

/-- `mask_and_tokenize_sequence` returns `input_ids` of length exactly
`max_length`. -/
theorem mtk_ids_length (tok : Tokenizer) (ml : Nat) (p : ℚ) (draws : Nat → ℚ)
    (s : String) (h : 2 ≤ ml) :
    (mask_and_tokenize_sequence tok ml p draws s).1.length = ml := by
  simpa [mask_and_tokenize_sequence] using
    encode_ids_length tok ml (masked_tokens_of tok p draws (tok.tokenize s)) h

/-- `mask_and_tokenize_sequence` returns an attention mask of length
exactly `max_length`. -/
theorem mtk_mask_length (tok : Tokenizer) (ml : Nat) (p : ℚ) (draws : Nat → ℚ)
    (s : String) (h : 2 ≤ ml) :
    (mask_and_tokenize_sequence tok ml p draws s).2.1.length = ml := by
  simpa [mask_and_tokenize_sequence] using
    encode_mask_length tok ml (masked_tokens_of tok p draws (tok.tokenize s)) h

/-- The returned labels have length `n + (max_length − n)` for token
count `n`: `max_length` when `n ≤ max_length`, but `n` itself when the
token count exceeds `max_length` (the extension is empty then). -/
theorem mtk_labels_length (tok : Tokenizer) (ml : Nat) (p : ℚ) (draws : Nat → ℚ)
    (s : String) :
    (mask_and_tokenize_sequence tok ml p draws s).2.2.length
      = (tok.tokenize s).length + (ml - (tok.tokenize s).length) := by
  simp [mask_and_tokenize_sequence, labels_of_length]

/-- Labels below the token count: the original id of a masked token,
the sentinel −100 otherwise. -/
theorem mtk_labels_getElem?_lt (tok : Tokenizer) (ml : Nat) (p : ℚ) (draws : Nat → ℚ)
    (s : String) (i : Nat) (t : String) (ht : (tok.tokenize s)[i]? = some t) :
    (mask_and_tokenize_sequence tok ml p draws s).2.2[i]? =
      some (if draws i < p then tok.convert_tokens_to_ids t else -100) := by
  have hi : i < (tok.tokenize s).length := lt_length_of_getElem?_some ht
  simp only [mask_and_tokenize_sequence]
  rw [List.getElem?_append, if_pos (by rw [labels_of_length]; exact hi),
    labels_of_getElem?, ht]
  rfl

/-- Labels between the token count and `max_length` hold the padding
sentinel −100. -/
theorem mtk_labels_getElem?_pad (tok : Tokenizer) (ml : Nat) (p : ℚ) (draws : Nat → ℚ)
    (s : String) (i : Nat) (h1 : (tok.tokenize s).length ≤ i) (h2 : i < ml) :
    (mask_and_tokenize_sequence tok ml p draws s).2.2[i]? = some (-100) := by
  simp only [mask_and_tokenize_sequence]
  rw [List.getElem?_append_right (by rw [labels_of_length]; exact h1),
    List.getElem?_replicate, if_pos (by rw [labels_of_length]; omega)]

/-- The re-encoded ids at position `i + 1` hold the id of the
(possibly mask-replaced) token `i`, for positions surviving truncation. -/
theorem mtk_ids_getElem?_succ (tok : Tokenizer) (ml : Nat) (p : ℚ) (draws : Nat → ℚ)
    (s : String) (i : Nat) (t : String) (ht : (tok.tokenize s)[i]? = some t)
    (h2 : i < ml - 2) :
    (mask_and_tokenize_sequence tok ml p draws s).1[i + 1]? =
      some (tok.convert_tokens_to_ids (if draws i < p then tok.mask_token else t)) := by
  have hi : i < (tok.tokenize s).length := lt_length_of_getElem?_some ht
  simp only [mask_and_tokenize_sequence]
  rw [encode_ids_getElem?_succ tok ml (masked_tokens_of tok p draws (tok.tokenize s)) i
    (by rw [masked_tokens_of_length]; exact hi) h2, masked_tokens_of_getElem?, ht]
  rfl

/-- With `mask_probability = 0` and draws in `[0,1)`, no token is ever
replaced. -/
theorem masked_tokens_of_zero (tok : Tokenizer) (draws : Nat → ℚ)
    (tokens : List String) (h : ∀ i, 0 ≤ draws i) :
    masked_tokens_of tok 0 draws tokens = tokens := by
  apply mapFrom_eq_self
  intro i a
  rw [if_neg (not_lt.mpr (h i))]

/-- With `mask_probability = 0` and draws in `[0,1)`, every per-token
label is the sentinel −100. -/
theorem labels_of_zero (tok : Tokenizer) (draws : Nat → ℚ)
    (tokens : List String) (h : ∀ i, 0 ≤ draws i) :
    labels_of tok 0 draws tokens = List.replicate tokens.length (-100) := by
  apply mapFrom_eq_replicate
  intro i a
  rw [if_neg (not_lt.mpr (h i))]

end DatasetClass

namespace Pretraining

/-- `random_mask_sequence` preserves the id-tensor length. -/
theorem rms_out_length (tok : Tokenizer) (p : ℚ) (r1 r2 : Nat → ℚ) (rt : Nat → Int)
    (s : String) :
    (random_mask_sequence tok p r1 r2 rt s).1.length = (tok.tokenize s).length := by
  simp [random_mask_sequence, mapFrom_length]

/-- The attention mask of `random_mask_sequence` matches the id-tensor
length (it is `torch.ones_like(input_ids)`). -/
theorem rms_mask_length (tok : Tokenizer) (p : ℚ) (r1 r2 : Nat → ℚ) (rt : Nat → Int)
    (s : String) :
    (random_mask_sequence tok p r1 r2 rt s).2.1.length = (tok.tokenize s).length := by
  simp [random_mask_sequence]

/-- The labels of `random_mask_sequence` match the id-tensor length. -/
theorem rms_labels_length (tok : Tokenizer) (p : ℚ) (r1 r2 : Nat → ℚ) (rt : Nat → Int)
    (s : String) :
    (random_mask_sequence tok p r1 r2 rt s).2.2.length = (tok.tokenize s).length := by
  simp [random_mask_sequence, mapFrom_length]

/-- Pointwise labels of the id-level masking: the original id where
selected, −100 elsewhere. -/
theorem rms_labels_getElem? (tok : Tokenizer) (p : ℚ) (r1 r2 : Nat → ℚ) (rt : Nat → Int)
    (s : String) (i : Nat) (v : Int)
    (hv : ((tok.tokenize s).map tok.convert_tokens_to_ids)[i]? = some v) :
    (random_mask_sequence tok p r1 r2 rt s).2.2[i]? =
      some (if r1 i < p then v else -100) := by
  simp only [random_mask_sequence]
  rw [mapFrom_getElem?, hv]
  simp

/-- Pointwise output ids of the id-level masking: the mask id on the
80% branch, the random id on the 20% branch, the original id when not
selected. -/
theorem rms_out_getElem? (tok : Tokenizer) (p : ℚ) (r1 r2 : Nat → ℚ) (rt : Nat → Int)
    (s : String) (i : Nat) (v : Int)
    (hv : ((tok.tokenize s).map tok.convert_tokens_to_ids)[i]? = some v) :
    (random_mask_sequence tok p r1 r2 rt s).1[i]? =
      some (if r1 i < p then
              (if r2 i < (4 : ℚ)/5 then tok.convert_tokens_to_ids tok.mask_token else rt i)
            else v) := by
  simp only [random_mask_sequence]
  rw [mapFrom_getElem?, hv]
  simp

/-- With `mask_probability = 0` and selection draws in `[0,1)`, the
id-level masking is the identity and all labels are −100. -/
theorem rms_zero (tok : Tokenizer) (r1 r2 : Nat → ℚ) (rt : Nat → Int) (s : String)
    (h : ∀ i, 0 ≤ r1 i) :
    (random_mask_sequence tok 0 r1 r2 rt s).1
        = (tok.tokenize s).map tok.convert_tokens_to_ids
      ∧ (random_mask_sequence tok 0 r1 r2 rt s).2.2
        = List.replicate (tok.tokenize s).length (-100) := by
  constructor
  · simp only [random_mask_sequence]
    apply mapFrom_eq_self
    intro i a
    rw [if_neg (not_lt.mpr (h i))]
  · simp only [random_mask_sequence]
    rw [mapFrom_eq_replicate (fun i a => by rw [if_neg (not_lt.mpr (h i))])]
    simp

end Pretraining

/-- Inversion for a successful `Except` bind. -/
theorem except_bind_ok {α β : Type} {e : Except String α} {f : α → Except String β} {v : β} :
    (e >>= f) = Except.ok v ↔ ∃ a, e = Except.ok a ∧ f a = Except.ok v := by
  cases e <;> simp [Bind.bind, Except.bind]

/-- A failing first component fails the whole `Except` bind. -/
theorem except_bind_error {α β : Type} {e : Except String α} {f : α → Except String β}
    {msg : String} (h : e = Except.error msg) : (e >>= f) = Except.error msg := by
  subst h
  rfl

/-- A successful first component reduces the `Except` bind. -/
theorem except_bind_ok_arg {α β : Type} {e : Except String α} {f : α → Except String β}
    {a : α} (h : e = Except.ok a) : (e >>= f) = f a := by
  subst h
  rfl

namespace DatasetClass

/-- `item[key]` succeeds on a present key. -/
theorem getKey_eq_ok {item : Ex} {k : String} {v : List Int}
    (h : findVal k item = some v) : getKey item k = Except.ok v := by
  simp [getKey, h]

/-- `item[key]` raises `KeyError` on an absent key. -/
theorem getKey_eq_error {item : Ex} {k : String} (h : findVal k item = none) :
    getKey item k = Except.error "KeyError" := by
  simp [getKey, h]

/-- If the first item lacks the key, the padding comprehension raises
`KeyError`. -/
theorem collectKey_error_head {key : String} {m : Nat} {item : Ex} (rest : List Ex)
    (h : findVal key item = none) :
    collectKey key m (item :: rest) = Except.error "KeyError" := by
  simp only [collectKey]
  rw [except_bind_error (getKey_eq_error h)]

/-- The padding comprehension succeeds when every item holds the key
with a tensor no longer than the joint max. -/
theorem collectKey_ok_exists {key : String} {m : Nat} :
    ∀ batch : List Ex, (∀ item ∈ batch, ∃ v, findVal key item = some v ∧ v.length ≤ m) →
      ∃ rows, collectKey key m batch = Except.ok rows
  | [], _ => ⟨[], rfl⟩
  | item :: rest, h => by
    obtain ⟨v, hv, hle⟩ := h item (List.mem_cons_self _ _)
    obtain ⟨rows, hrows⟩ :=
      collectKey_ok_exists rest (fun it hit => h it (List.mem_cons_of_mem _ hit))
    refine ⟨pad_to v m (pad_fill key) :: rows, ?_⟩
    simp only [collectKey]
    rw [except_bind_ok_arg (getKey_eq_ok hv), if_pos hle, except_bind_ok_arg hrows]
    rfl

/-- Every successful padding comprehension has one row per batch item,
each a right-padded tensor of length-compatible source. -/
theorem collectKey_ok_rows {key : String} {m : Nat} :
    ∀ (batch : List Ex) (rows : List (List Int)),
      collectKey key m batch = Except.ok rows →
      rows.length = batch.length ∧
        ∀ row ∈ rows, ∃ v, v.length ≤ m ∧ row = pad_to v m (pad_fill key)
  | [], rows, h => by
    simp only [collectKey] at h
    cases h
    exact ⟨rfl, by simp⟩
  | item :: rest, rows, h => by
    simp only [collectKey] at h
    rw [except_bind_ok] at h
    obtain ⟨v, hv, h2⟩ := h
    split at h2
    · rw [except_bind_ok] at h2
      obtain ⟨vs, hvs, h3⟩ := h2
      have hrec := collectKey_ok_rows rest vs hvs
      have hrows : rows = pad_to v m (pad_fill key) :: vs := by
        simpa [pure, Except.pure] using h3.symm
      subst hrows
      refine ⟨by simp [hrec.1], ?_⟩
      intro row hrow
      rcases List.mem_cons.mp hrow with hr | hr
      · subst hr
        exact ⟨v, by assumption, rfl⟩
      · exact hrec.2 row hr
    · cases h2

/-- A successful key loop emits exactly the iterated key list, each key
paired with its padding comprehension. -/
theorem collateKeys_ok_spec {batch : List Ex} {m : Nat} :
    ∀ (ks : List String) (out : List (String × List (List Int))),
      collateKeys batch m ks = Except.ok out →
      out.map Prod.fst = ks ∧
        ∀ key rows, (key, rows) ∈ out → collectKey key m batch = Except.ok rows
  | [], out, h => by
    simp only [collateKeys] at h
    cases h
    exact ⟨rfl, by simp⟩
  | k :: ks, out, h => by
    simp only [collateKeys] at h
    rw [except_bind_ok] at h
    obtain ⟨rows, hrows, h2⟩ := h
    rw [except_bind_ok] at h2
    obtain ⟨rest, hrest, h3⟩ := h2
    have hout : out = (k, rows) :: rest := by
      simpa [pure, Except.pure] using h3.symm
    subst hout
    have hrec := collateKeys_ok_spec ks rest hrest
    refine ⟨by simp [hrec.1], ?_⟩
    intro key rws hmem
    rcases List.mem_cons.mp hmem with hr | hr
    · cases hr
      exact hrows
    · exact hrec.2 key rws hr

/-- The joint-max generator evaluates to a constant list when every
item carries global and local id tensors of the same length `ml`. -/
theorem pairMaxLens_const {ml : Nat} :
    ∀ batch : List Ex,
      (∀ item ∈ batch, ∃ g l, findVal "input_ids_global" item = some g ∧
        findVal "input_ids_local" item = some l ∧ g.length = ml ∧ l.length = ml) →
      pairMaxLens batch = Except.ok (batch.map fun _ => ml)
  | [], _ => rfl
  | item :: rest, h => by
    obtain ⟨g, l, hg, hl, hgl, hll⟩ := h item (List.mem_cons_self _ _)
    have hrec := pairMaxLens_const rest (fun it hit => h it (List.mem_cons_of_mem _ hit))
    simp only [pairMaxLens]
    rw [except_bind_ok_arg (getKey_eq_ok hg), except_bind_ok_arg (getKey_eq_ok hl),
      except_bind_ok_arg hrec]
    simp [pure, Except.pure, hgl, hll]

/-- Folding `max` over a constant list. -/
theorem foldl_max_self : ∀ (l : List Nat) (ml : Nat), (∀ x ∈ l, x = ml) → l.foldl max ml = ml
  | [], _, _ => rfl
  | x :: xs, ml, h => by
    have hx : x = ml := h x (List.mem_cons_self _ _)
    subst hx
    rw [List.foldl_cons, Nat.max_self]
    exact foldl_max_self xs x (fun y hy => h y (List.mem_cons_of_mem _ hy))

/-- The joint batch max is `ml` when every item carries global and
local id tensors of length `ml`. -/
theorem dc_max_length_const {ml : Nat} {batch : List Ex} (hne : batch ≠ [])
    (h : ∀ item ∈ batch, ∃ g l, findVal "input_ids_global" item = some g ∧
      findVal "input_ids_local" item = some l ∧ g.length = ml ∧ l.length = ml) :
    dc_max_length batch = Except.ok ml := by
  cases batch with
  | nil => exact absurd rfl hne
  | cons b bs =>
    simp only [dc_max_length]
    rw [except_bind_ok_arg (pairMaxLens_const _ h)]
    simp only [List.map_cons]
    rw [foldl_max_self (bs.map fun _ => ml) ml (by simp)]

end DatasetClass

namespace Pretraining

/-- Every member of a `pad_sequence` call is bounded by that call's max. -/
theorem le_max_len_of_mem {v : List Int} :
    ∀ {seqs : List (List Int)}, v ∈ seqs → v.length ≤ max_len seqs
  | [], h => absurd h (List.not_mem_nil v)
  | s :: rest, h => by
    rcases List.mem_cons.mp h with hr | hr
    · subst hr
      simp [max_len]
    · calc v.length ≤ max_len rest := le_max_len_of_mem hr
        _ ≤ max_len (s :: rest) := by simp [max_len]

/-- `pad_sequence` emits one row per input tensor. -/
theorem pad_sequence_length (seqs : List (List Int)) (fill : Int) :
    (pad_sequence seqs fill).length = seqs.length := by
  simp [pad_sequence]

/-- Every row of a `pad_sequence` output has the per-call max length. -/
theorem pad_sequence_row_length {seqs : List (List Int)} {fill : Int} {row : List Int}
    (h : row ∈ pad_sequence seqs fill) : row.length = max_len seqs := by
  obtain ⟨v, hv, hrow⟩ := List.mem_map.mp h
  subst hrow
  exact pad_to_length _ _ _ (le_max_len_of_mem hv)

/-- Every row of a `pad_sequence` output is a right-padded input row. -/
theorem pad_sequence_row_shape {seqs : List (List Int)} {fill : Int} {row : List Int}
    (h : row ∈ pad_sequence seqs fill) :
    ∃ v, v.length ≤ max_len seqs ∧ row = pad_to v (max_len seqs) fill := by
  obtain ⟨v, hv, hrow⟩ := List.mem_map.mp h
  exact ⟨v, le_max_len_of_mem hv, hrow.symm⟩

/-- A mode with no contributing example is skipped entirely. -/
theorem collate_mode_empty {batch : List Ex} {mode : String}
    (h : batch.filterMap (fun item => findVal ("input_ids_" ++ mode) item) = []) :
    collate_mode batch mode = Except.ok [] := by
  simp only [collate_mode]
  rw [if_pos (by simp [h])]

/-- The mode loop succeeds whenever every item carrying the mode's id
tensor also carries its attention tensor. -/
theorem collate_mode_ok {batch : List Ex} {mode : String}
    (hp : ∀ item ∈ batch, (findVal ("input_ids_" ++ mode) item).isSome →
      (findVal ("attention_mask_" ++ mode) item).isSome) :
    ∃ g, collate_mode batch mode = Except.ok g := by
  by_cases h1 : (batch.filterMap fun item => findVal ("input_ids_" ++ mode) item).isEmpty
  · refine ⟨[], ?_⟩
    simp only [collate_mode]
    rw [if_pos h1]
  · have h1b : ¬ (batch.filterMap fun item => findVal ("input_ids_" ++ mode) item) = [] := by
      intro hc
      exact h1 (by simp [hc])
    have hex : ∃ item ∈ batch, (findVal ("input_ids_" ++ mode) item).isSome := by
      by_contra hc
      push_neg at hc
      refine h1b (List.filterMap_eq_nil_iff.mpr ?_)
      intro item hit
      have := hc item hit
      exact Option.not_isSome_iff_eq_none.mp this
    obtain ⟨item, hit, hsome⟩ := hex
    have h2 : ¬ (batch.filterMap fun item => findVal ("attention_mask_" ++ mode) item).isEmpty := by
      intro hc
      rw [List.isEmpty_iff] at hc
      have hnone := List.filterMap_eq_nil_iff.mp hc item hit
      have h3 := hp item hit hsome
      rw [hnone] at h3
      simp at h3
    refine ⟨[("input_ids_" ++ mode,
        pad_sequence (batch.filterMap fun item => findVal ("input_ids_" ++ mode) item) 0),
      ("attention_mask_" ++ mode,
        pad_sequence (batch.filterMap fun item => findVal ("attention_mask_" ++ mode) item) 0)]
      ++ labels_part (batch.filterMap fun item => findVal ("labels_" ++ mode) item) mode, ?_⟩
    simp only [collate_mode]
    rw [if_neg h1, if_neg h2]

/-- Membership in the optional labels channel identifies the key and
the stacked tensor. -/
theorem labels_part_mem {L : List (List Int)} {mode key : String} {rows : List (List Int)}
    (h : (key, rows) ∈ labels_part L mode) :
    key = "labels_" ++ mode ∧ rows = pad_sequence L (-100) := by
  unfold labels_part at h
  split at h
  · exact absurd h (List.not_mem_nil _)
  · rcases List.mem_cons.mp h with hr | hm2
    · exact ⟨congrArg Prod.fst hr, congrArg Prod.snd hr⟩
    · exact absurd hm2 (List.not_mem_nil _)

/-- Any channel pair a successful mode loop emits is one of the three
channel keys with its padded contributor stack. -/
theorem collate_mode_mem {batch : List Ex} {mode key : String}
    {g : List (String × List (List Int))} {rows : List (List Int)}
    (hok : collate_mode batch mode = Except.ok g) (hmem : (key, rows) ∈ g) :
    (key = "input_ids_" ++ mode ∧
      rows = pad_sequence (batch.filterMap fun item => findVal ("input_ids_" ++ mode) item) 0)
  ∨ (key = "attention_mask_" ++ mode ∧
      rows = pad_sequence (batch.filterMap fun item => findVal ("attention_mask_" ++ mode) item) 0)
  ∨ (key = "labels_" ++ mode ∧
      rows = pad_sequence (batch.filterMap fun item => findVal ("labels_" ++ mode) item) (-100)) := by
  simp only [collate_mode] at hok
  split_ifs at hok with h1 h2
  all_goals cases hok
  all_goals try exact absurd hmem (List.not_mem_nil _)
  rcases List.mem_append.mp hmem with hm | hm
  · rcases List.mem_cons.mp hm with hr | hm2
    · exact Or.inl ⟨congrArg Prod.fst hr, congrArg Prod.snd hr⟩
    · rcases List.mem_cons.mp hm2 with hr | hm3
      · exact Or.inr (Or.inl ⟨congrArg Prod.fst hr, congrArg Prod.snd hr⟩)
      · exact absurd hm3 (List.not_mem_nil _)
  · exact Or.inr (Or.inr (labels_part_mem hm))

/-- Inversion of a successful pre-training collation into its two mode
results. -/
theorem collate_fn_ok_iff {batch : List Ex} {out : List (String × List (List Int))} :
    collate_fn batch = Except.ok out ↔
      ∃ g l, collate_mode batch "global_masked" = Except.ok g ∧
        collate_mode batch "local" = Except.ok l ∧ out = g ++ l := by
  constructor
  · intro h
    simp only [collate_fn] at h
    rw [except_bind_ok] at h
    obtain ⟨g, hg, h⟩ := h
    rw [except_bind_ok] at h
    obtain ⟨l, hl, h⟩ := h
    exact ⟨g, l, hg, hl, by simpa [pure, Except.pure] using h.symm⟩
  · rintro ⟨g, l, hg, hl, rfl⟩
    simp only [collate_fn]
    rw [except_bind_ok_arg hg, except_bind_ok_arg hl]
    rfl

end Pretraining

/-- Claim C1: the spec asserts `len(input_ids) == len(attention_mask) ==
len(labels)` for every example of both masking paths, including inputs
whose token count exceeds `max_length`.  The string-level path violates
this: the labels extension `[-100] * (max_length - len(labels))` is
empty for overlong inputs and labels are never truncated, so at
`max_length = 3` on a four-token input, `input_ids` and
`attention_mask` have length 3 while `labels` has length 4. -/
theorem claim_C1_length_mismatch :
    (DatasetClass.mask_and_tokenize_sequence toyTok 3 (15/100) (fun _ => 1/2) "A B C D").1.length = 3
  ∧ (DatasetClass.mask_and_tokenize_sequence toyTok 3 (15/100) (fun _ => 1/2) "A B C D").2.1.length = 3
  ∧ (DatasetClass.mask_and_tokenize_sequence toyTok 3 (15/100) (fun _ => 1/2) "A B C D").2.2.length = 4
  ∧ ¬ (4 = 3) :=
  ⟨rfl, rfl, rfl, by decide⟩

/-- Claim C2 counterexample: labels are not always "right-padded with
−100 to that same length" as `input_ids`: at `max_length = 2` on a
three-token input the returned labels keep length 3 while `input_ids`
has length 2, so the padding clause fails as stated. -/
theorem claim_C2_counterexample :
    (DatasetClass.mask_and_tokenize_sequence toyTok 2 (1/2) (fun _ => 1/2) "A B C").2.2.length = 3
  ∧ (DatasetClass.mask_and_tokenize_sequence toyTok 2 (1/2) (fun _ => 1/2) "A B C").1.length = 2
  ∧ ¬ (3 = 2) :=
  ⟨rfl, rfl, by decide⟩

/-- Claim C2 (amended): in the string-level operation, for every token
position independently, a draw below `mask_probability` replaces the
token by the mask token and records its original id in `labels`,
otherwise the token is kept and the label is −100; the altered token
sequence is re-encoded with padding/truncation to `max_length` (the id
of the possibly-replaced token `i` appears at encoded position
`i + 1`); labels are right-padded with −100 up to `max_length` when the
token count is at most `max_length`, and are left at the token count
(unpadded, untruncated) when it exceeds `max_length`. -/
theorem claim_C2_masking_semantics :
    (∀ (tok : Tokenizer) (ml : Nat) (p : ℚ) (draws : Nat → ℚ) (s : String) (i : Nat) (t : String),
      (tok.tokenize s)[i]? = some t →
        (DatasetClass.mask_and_tokenize_sequence tok ml p draws s).2.2[i]?
            = some (if draws i < p then tok.convert_tokens_to_ids t else -100)
          ∧ (DatasetClass.masked_tokens_of tok p draws (tok.tokenize s))[i]?
            = some (if draws i < p then tok.mask_token else t)
          ∧ (i < ml - 2 →
              (DatasetClass.mask_and_tokenize_sequence tok ml p draws s).1[i + 1]?
                = some (tok.convert_tokens_to_ids (if draws i < p then tok.mask_token else t))))
  ∧ (∀ (tok : Tokenizer) (ml : Nat) (p : ℚ) (draws : Nat → ℚ) (s : String) (i : Nat),
      (tok.tokenize s).length ≤ i → i < ml →
        (DatasetClass.mask_and_tokenize_sequence tok ml p draws s).2.2[i]? = some (-100))
  ∧ (∀ (tok : Tokenizer) (ml : Nat) (p : ℚ) (draws : Nat → ℚ) (s : String),
      ((tok.tokenize s).length ≤ ml →
        (DatasetClass.mask_and_tokenize_sequence tok ml p draws s).2.2.length = ml)
      ∧ (ml < (tok.tokenize s).length →
        (DatasetClass.mask_and_tokenize_sequence tok ml p draws s).2.2.length
          = (tok.tokenize s).length)
      ∧ (2 ≤ ml →
        (DatasetClass.mask_and_tokenize_sequence tok ml p draws s).1.length = ml)) := by
  refine ⟨?_, ?_, ?_⟩
  · intro tok ml p draws s i t ht
    refine ⟨DatasetClass.mtk_labels_getElem?_lt tok ml p draws s i t ht, ?_, ?_⟩
    · rw [DatasetClass.masked_tokens_of_getElem?, ht]
      rfl
    · intro h2
      exact DatasetClass.mtk_ids_getElem?_succ tok ml p draws s i t ht h2
  · intro tok ml p draws s i h1 h2
    exact DatasetClass.mtk_labels_getElem?_pad tok ml p draws s i h1 h2
  · intro tok ml p draws s
    refine ⟨?_, ?_, DatasetClass.mtk_ids_length tok ml p draws s⟩
    · intro h
      rw [DatasetClass.mtk_labels_length]
      omega
    · intro h
      rw [DatasetClass.mtk_labels_length]
      omega

/-- Witness for C2 at a concrete input: token 0 of "A B" masked with
probability 1 and draw 0. -/
theorem claim_C2_witness :
    (DatasetClass.mask_and_tokenize_sequence toyTok 6 1 (fun _ => 0) "A B").2.2[0]?
        = some (if (fun _ : Nat => (0 : ℚ)) 0 < 1 then toyTok.convert_tokens_to_ids "A" else -100)
      ∧ (DatasetClass.masked_tokens_of toyTok 1 (fun _ => 0) (toyTok.tokenize "A B"))[0]?
        = some (if (fun _ : Nat => (0 : ℚ)) 0 < 1 then toyTok.mask_token else "A")
      ∧ (0 < 6 - 2 →
          (DatasetClass.mask_and_tokenize_sequence toyTok 6 1 (fun _ => 0) "A B").1[0 + 1]?
            = some (toyTok.convert_tokens_to_ids
                (if (fun _ : Nat => (0 : ℚ)) 0 < 1 then toyTok.mask_token else "A"))) :=
  claim_C2_masking_semantics.1 toyTok 6 1 (fun _ => 0) "A B" 0 "A" (by decide)

/-- Claim C3: in the id-level three-way masking, each position with
selection draw below `mask_probability` has its original id copied to
`labels` (−100 otherwise); a selected position is replaced by the mask
id when the second draw is below 0.8 and by the `randint(2, vocab_size)`
value otherwise, so every replacement id `r` satisfies
`2 ≤ r < vocab_size`; unselected positions are unchanged. -/
theorem claim_C3_three_way_masking :
    ∀ (tok : Tokenizer) (p : ℚ) (r1 r2 : Nat → ℚ) (rt : Nat → Int) (s : String)
      (i : Nat) (v : Int),
      (∀ j, 2 ≤ rt j ∧ rt j < (tok.vocab_size : Int)) →
      2 ≤ tok.convert_tokens_to_ids tok.mask_token →
      tok.convert_tokens_to_ids tok.mask_token < (tok.vocab_size : Int) →
      ((tok.tokenize s).map tok.convert_tokens_to_ids)[i]? = some v →
      ((Pretraining.random_mask_sequence tok p r1 r2 rt s).2.2[i]?
          = some (if r1 i < p then v else -100))
        ∧ (r1 i < p → r2 i < (4:ℚ)/5 →
            (Pretraining.random_mask_sequence tok p r1 r2 rt s).1[i]?
              = some (tok.convert_tokens_to_ids tok.mask_token))
        ∧ (r1 i < p → ¬ r2 i < (4:ℚ)/5 →
            (Pretraining.random_mask_sequence tok p r1 r2 rt s).1[i]? = some (rt i))
        ∧ (r1 i < p → ∀ w,
            (Pretraining.random_mask_sequence tok p r1 r2 rt s).1[i]? = some w →
              2 ≤ w ∧ w < (tok.vocab_size : Int))
        ∧ (¬ r1 i < p →
            (Pretraining.random_mask_sequence tok p r1 r2 rt s).1[i]? = some v) := by
  intro tok p r1 r2 rt s i v hrt hm1 hm2 hv
  refine ⟨Pretraining.rms_labels_getElem? tok p r1 r2 rt s i v hv, ?_, ?_, ?_, ?_⟩
  · intro hsel h80
    rw [Pretraining.rms_out_getElem? tok p r1 r2 rt s i v hv, if_pos hsel, if_pos h80]
  · intro hsel h80
    rw [Pretraining.rms_out_getElem? tok p r1 r2 rt s i v hv, if_pos hsel, if_neg h80]
  · intro hsel w hw
    rw [Pretraining.rms_out_getElem? tok p r1 r2 rt s i v hv, if_pos hsel] at hw
    simp only [Option.some.injEq] at hw
    subst hw
    split
    · exact ⟨hm1, hm2⟩
    · exact hrt i
  · intro hsel
    rw [Pretraining.rms_out_getElem? tok p r1 r2 rt s i v hv, if_neg hsel]

/-- Witness for C3 at a concrete input: position 0 of "A B" selected
(draw 0 < probability 1) on the mask branch (second draw 0 < 0.8). -/
theorem claim_C3_witness :
    ((Pretraining.random_mask_sequence toyTok 1 (fun _ => 0) (fun _ => 0) (fun _ => 7) "A B").2.2[0]?
        = some (if (fun _ : Nat => (0 : ℚ)) 0 < 1 then 10 else -100))
      ∧ ((fun _ : Nat => (0 : ℚ)) 0 < 1 → (fun _ : Nat => (0 : ℚ)) 0 < (4:ℚ)/5 →
          (Pretraining.random_mask_sequence toyTok 1 (fun _ => 0) (fun _ => 0) (fun _ => 7) "A B").1[0]?
            = some (toyTok.convert_tokens_to_ids toyTok.mask_token))
      ∧ ((fun _ : Nat => (0 : ℚ)) 0 < 1 → ¬ (fun _ : Nat => (0 : ℚ)) 0 < (4:ℚ)/5 →
          (Pretraining.random_mask_sequence toyTok 1 (fun _ => 0) (fun _ => 0) (fun _ => 7) "A B").1[0]?
            = some ((fun _ : Nat => (7 : Int)) 0))
      ∧ ((fun _ : Nat => (0 : ℚ)) 0 < 1 → ∀ w,
          (Pretraining.random_mask_sequence toyTok 1 (fun _ => 0) (fun _ => 0) (fun _ => 7) "A B").1[0]?
            = some w → 2 ≤ w ∧ w < (toyTok.vocab_size : Int))
      ∧ (¬ (fun _ : Nat => (0 : ℚ)) 0 < 1 →
          (Pretraining.random_mask_sequence toyTok 1 (fun _ => 0) (fun _ => 0) (fun _ => 7) "A B").1[0]?
            = some 10) :=
  claim_C3_three_way_masking toyTok 1 (fun _ => 0) (fun _ => 0) (fun _ => 7) "A B" 0 10
    (by intro j
        show (2 : Int) ≤ 7 ∧ (7 : Int) < ((30 : Nat) : Int)
        exact ⟨by decide, by decide⟩)
    (by decide) (by decide) (by decide)

namespace DatasetClass

/-- Stepping the key loop past a key whose padding succeeded. -/
theorem collateKeys_cons_ok {batch : List Ex} {m : Nat} {key : String} {ks : List String}
    {rows : List (List Int)} (h : collectKey key m batch = Except.ok rows) :
    collateKeys batch m (key :: ks)
      = (collateKeys batch m ks) >>= fun rest => Except.ok ((key, rows) :: rest) := by
  simp only [collateKeys]
  rw [except_bind_ok_arg h]
  rfl

/-- A key whose padding raises aborts the key loop with that error. -/
theorem collateKeys_cons_error {batch : List Ex} {m : Nat} {key : String}
    {ks : List String} {msg : String} (h : collectKey key m batch = Except.error msg) :
    collateKeys batch m (key :: ks) = Except.error msg := by
  simp only [collateKeys]
  exact except_bind_error h

end DatasetClass

/-- Claim C8 counterexample: a dataframe lacking `Sequence_A` does not
fail at dataset construction — `__init__` only stores attributes and
succeeds — and the missing column instead surfaces as a `KeyError` at
per-example access. -/
theorem claim_C8_counterexample :
    DatasetClass.init (DataFrame.mk [[("Sequence_B", "A")]]) toyTok 4 0
        = Except.ok ⟨DataFrame.mk [[("Sequence_B", "A")]], toyTok, 4, 0⟩
    ∧ DatasetClass.dataset_getitem
        ⟨DataFrame.mk [[("Sequence_B", "A")]], toyTok, 4, 0⟩ (fun _ => 0) 0
      = Except.error "KeyError" :=
  ⟨rfl, rfl⟩

/-- Claim C8 (amended): the constructor performs no column validation
and always succeeds, merely storing its arguments; a missing required
column is detected only at per-example access, where the row lookup of
`Sequence_A` (the first column read) raises `KeyError`. -/
theorem claim_C8_construction :
    ∀ (df : DataFrame) (tok : Tokenizer) (ml : Nat) (p : ℚ) (draws : Nat → ℚ) (idx : Nat)
      (row : Row),
      DatasetClass.init df tok ml p = Except.ok ⟨df, tok, ml, p⟩
      ∧ (df.rows[idx]? = some row → findVal "Sequence_A" row = none →
          DatasetClass.dataset_getitem ⟨df, tok, ml, p⟩ draws idx
            = Except.error "KeyError") := by
  intro df tok ml p draws idx row
  refine ⟨rfl, ?_⟩
  intro hrow hcol
  simp only [DatasetClass.dataset_getitem]
  rw [hrow]
  show DatasetClass.getitem tok ml p draws row = Except.error "KeyError"
  simp only [DatasetClass.getitem]
  exact except_bind_error (by simp [getCol, hcol])

/-- Witness for C8 at a concrete dataframe whose row has only
`Sequence_B`. -/
theorem claim_C8_witness :
    DatasetClass.init (DataFrame.mk [[("Sequence_B", "MK")]]) toyTok 6 1
        = Except.ok ⟨DataFrame.mk [[("Sequence_B", "MK")]], toyTok, 6, 1⟩
    ∧ DatasetClass.dataset_getitem ⟨DataFrame.mk [[("Sequence_B", "MK")]], toyTok, 6, 1⟩
        (fun _ => 0) 0 = Except.error "KeyError" :=
  ⟨(claim_C8_construction (DataFrame.mk [[("Sequence_B", "MK")]]) toyTok 6 1 (fun _ => 0) 0
      [("Sequence_B", "MK")]).1,
   (claim_C8_construction (DataFrame.mk [[("Sequence_B", "MK")]]) toyTok 6 1 (fun _ => 0) 0
      [("Sequence_B", "MK")]).2 (by decide) (by decide)⟩

/-- Claim C9: the `DatasetClass.py` collator iterates a fixed key list
that contains `labels_global` and omits `labels_local`; every non-empty
batch of that file's `__getitem__` outputs (which carry `labels_local`
but never `labels_global`) makes `collate_fn` raise `KeyError` at the
`labels_global` lookup, and a successful collation can never emit
`labels_local`. -/
theorem claim_C9_collator_keyerror :
    (∀ (tok : Tokenizer) (ml : Nat) (p : ℚ) (batch : List Ex), 2 ≤ ml → batch ≠ [] →
      (∀ item ∈ batch, ∃ draws a b ma mb,
        item = DatasetClass.item_of tok ml p draws a b ma mb) →
      DatasetClass.collate_fn batch = Except.error "KeyError")
    ∧ (∀ (batch : List Ex) (out : List (String × List (List Int))),
        DatasetClass.collate_fn batch = Except.ok out →
          ¬ ("labels_local" ∈ out.map Prod.fst)) := by
  constructor
  · intro tok ml p batch h2 hne hitems
    have hmax : DatasetClass.dc_max_length batch = Except.ok ml := by
      refine DatasetClass.dc_max_length_const hne ?_
      intro item hit
      obtain ⟨draws, a, b, ma, mb, rfl⟩ := hitems item hit
      exact ⟨_, _, rfl, rfl, encode_ids_length tok ml _ h2,
        DatasetClass.mtk_ids_length tok ml p draws _ h2⟩
    have hids : ∀ item ∈ batch, ∃ v, findVal "input_ids_global" item = some v
        ∧ v.length ≤ ml := by
      intro item hit
      obtain ⟨draws, a, b, ma, mb, rfl⟩ := hitems item hit
      exact ⟨_, rfl, le_of_eq (encode_ids_length tok ml _ h2)⟩
    have hatt : ∀ item ∈ batch, ∃ v, findVal "attention_mask_global" item = some v
        ∧ v.length ≤ ml := by
      intro item hit
      obtain ⟨draws, a, b, ma, mb, rfl⟩ := hitems item hit
      exact ⟨_, rfl, le_of_eq (encode_mask_length tok ml _ h2)⟩
    obtain ⟨r1, hr1⟩ := DatasetClass.collectKey_ok_exists batch hids
    obtain ⟨r2, hr2⟩ := DatasetClass.collectKey_ok_exists batch hatt
    have hr3 : DatasetClass.collectKey "labels_global" ml batch
        = Except.error "KeyError" := by
      cases batch with
      | nil => exact absurd rfl hne
      | cons item rest =>
        obtain ⟨draws, a, b, ma, mb, rfl⟩ := hitems item (List.mem_cons_self _ _)
        exact DatasetClass.collectKey_error_head rest rfl
    simp only [DatasetClass.collate_fn]
    rw [except_bind_ok_arg hmax]
    simp only [DatasetClass.batch_keys]
    rw [DatasetClass.collateKeys_cons_ok hr1, DatasetClass.collateKeys_cons_ok hr2,
      DatasetClass.collateKeys_cons_error hr3]
    rfl
  · intro batch out hok hmem
    simp only [DatasetClass.collate_fn] at hok
    rw [except_bind_ok] at hok
    obtain ⟨m, hm, hkeys⟩ := hok
    rw [(DatasetClass.collateKeys_ok_spec DatasetClass.batch_keys out hkeys).1] at hmem
    exact absurd hmem (by decide)

/-- Witness for C9 at a one-item batch produced by `__getitem__`. -/
theorem claim_C9_witness :
    DatasetClass.collate_fn [DatasetClass.item_of toyTok 4 0 (fun _ => 0) "A" "B" "A" "B"]
      = Except.error "KeyError" :=
  claim_C9_collator_keyerror.1 toyTok 4 0
    [DatasetClass.item_of toyTok 4 0 (fun _ => 0) "A" "B" "A" "B"]
    (by decide) (by decide)
    (by intro item hit
        rw [List.mem_singleton] at hit
        exact ⟨fun _ => 0, "A", "B", "A", "B", hit⟩)

/-- Claim C6: with `mask_probability = 0` and uniform draws in `[0,1)`,
every labels entry is −100 and `input_ids` equals the unmasked
tokenization, in both the string-level and the id-level operations. -/
theorem claim_C6_zero_probability :
    ∀ (tok : Tokenizer) (ml : Nat) (draws r1 r2 : Nat → ℚ) (rt : Nat → Int) (s : String),
      (∀ i, 0 ≤ draws i) → (∀ i, 0 ≤ r1 i) →
      ((∀ x ∈ (DatasetClass.mask_and_tokenize_sequence tok ml 0 draws s).2.2, x = -100)
        ∧ (DatasetClass.mask_and_tokenize_sequence tok ml 0 draws s).1
            = (DatasetClass.tokenize_sequence tok ml s).1)
      ∧ ((∀ x ∈ (Pretraining.random_mask_sequence tok 0 r1 r2 rt s).2.2, x = -100)
        ∧ (Pretraining.random_mask_sequence tok 0 r1 r2 rt s).1
            = (tok.tokenize s).map tok.convert_tokens_to_ids) := by
  intro tok ml draws r1 r2 rt s hd hr
  refine ⟨⟨?_, ?_⟩, ?_, (Pretraining.rms_zero tok r1 r2 rt s hr).1⟩
  · intro x hx
    simp only [DatasetClass.mask_and_tokenize_sequence] at hx
    rw [DatasetClass.labels_of_zero tok draws _ hd] at hx
    rcases List.mem_append.mp hx with h | h
    · exact List.eq_of_mem_replicate h
    · exact List.eq_of_mem_replicate h
  · simp only [DatasetClass.mask_and_tokenize_sequence, DatasetClass.tokenize_sequence]
    rw [DatasetClass.masked_tokens_of_zero tok draws _ hd]
  · intro x hx
    rw [(Pretraining.rms_zero tok r1 r2 rt s hr).2] at hx
    exact List.eq_of_mem_replicate hx

/-- Witness for C6 at a concrete input with constant draw 1/2. -/
theorem claim_C6_witness :
    ((∀ x ∈ (DatasetClass.mask_and_tokenize_sequence toyTok 6 0 (fun _ => 1/2) "M K").2.2, x = -100)
      ∧ (DatasetClass.mask_and_tokenize_sequence toyTok 6 0 (fun _ => 1/2) "M K").1
          = (DatasetClass.tokenize_sequence toyTok 6 "M K").1)
    ∧ ((∀ x ∈ (Pretraining.random_mask_sequence toyTok 0 (fun _ => 1/2) (fun _ => 1/2) (fun _ => 2) "M K").2.2, x = -100)
      ∧ (Pretraining.random_mask_sequence toyTok 0 (fun _ => 1/2) (fun _ => 1/2) (fun _ => 2) "M K").1
          = (toyTok.tokenize "M K").map toyTok.convert_tokens_to_ids) :=
  claim_C6_zero_probability toyTok 6 (fun _ => 1/2) (fun _ => 1/2) (fun _ => 1/2) (fun _ => 2)
    "M K"
    (by intro i
        show (0 : ℚ) ≤ 1/2
        norm_num)
    (by intro i
        show (0 : ℚ) ≤ 1/2
        norm_num)

/-- Claim C7 counterexample: `random_mask_sequence` applies no
truncation, so on a three-token input its `input_ids` has length 3,
which exceeds a `max_length` of 2 — the claim that every engine
operation truncates to `max_length` fails for it. -/
theorem claim_C7_counterexample :
    (Pretraining.random_mask_sequence toyTok 0 (fun _ => 1/2) (fun _ => 1/2) (fun _ => 2) "A B C").1.length = 3
    ∧ ¬ (3 ≤ 2) :=
  ⟨rfl, by decide⟩

/-- Claim C7 (amended): the two `DatasetClass.py` operations truncate
and pad the encoding to exactly `max_length` and never raise for
overlong inputs; the pre-training `random_mask_sequence` applies no
truncation — its `input_ids` length equals the token count (its file
instead pre-truncates the raw dataframe strings to 500 characters). -/
theorem claim_C7_truncation :
    ∀ (tok : Tokenizer) (ml : Nat) (p : ℚ) (draws r1 r2 : Nat → ℚ) (rt : Nat → Int)
      (s : String), 2 ≤ ml →
      (DatasetClass.tokenize_sequence tok ml s).1.length = ml
      ∧ (DatasetClass.mask_and_tokenize_sequence tok ml p draws s).1.length = ml
      ∧ (Pretraining.random_mask_sequence tok p r1 r2 rt s).1.length
          = (tok.tokenize s).length := by
  intro tok ml p draws r1 r2 rt s h
  exact ⟨encode_ids_length tok ml (tok.tokenize s) h,
    DatasetClass.mtk_ids_length tok ml p draws s h,
    Pretraining.rms_out_length tok p r1 r2 rt s⟩

/-- Witness for C7 at `max_length = 4` on a six-token input. -/
theorem claim_C7_witness :
    (DatasetClass.tokenize_sequence toyTok 4 "A B C D M K").1.length = 4
    ∧ (DatasetClass.mask_and_tokenize_sequence toyTok 4 (1/2) (fun _ => 1/2) "A B C D M K").1.length = 4
    ∧ (Pretraining.random_mask_sequence toyTok (1/2) (fun _ => 1/2) (fun _ => 1/2) (fun _ => 2) "A B C D M K").1.length
        = (toyTok.tokenize "A B C D M K").length :=
  claim_C7_truncation toyTok 4 (1/2) (fun _ => 1/2) (fun _ => 1/2) (fun _ => 1/2) (fun _ => 2)
    "A B C D M K" (by decide)

/-- Claim C10 counterexample: when two consecutive tokens are both
masked, the position of the second token holds a recorded original id
in `labels` and simultaneously the mask-token id in `input_ids` at the
same index (the mask written there belongs to the preceding token), so
the claim's final clause fails. -/
theorem claim_C10_counterexample :
    (DatasetClass.mask_and_tokenize_sequence toyTok 6 1 (fun _ => 0) "C D").2.2[1]? = some 13
    ∧ ((13 : Int) ≠ -100)
    ∧ (DatasetClass.mask_and_tokenize_sequence toyTok 6 1 (fun _ => 0) "C D").1[1]?
        = some (toyTok.convert_tokens_to_ids toyTok.mask_token) :=
  ⟨rfl, by decide, rfl⟩

/-- Claim C10 (amended): the re-encoding inserts a leading classifier
token, so for every masked token `i` that survives truncation the
recorded original id sits at index `i` of `labels` while the mask-token
id sits at index `i + 1` of `input_ids`; the index-`i` entry of
`input_ids` may nonetheless also be the mask-token id, namely when the
preceding token was masked too — only the `+1`-shifted alignment is
guaranteed. -/
theorem claim_C10_shifted_alignment :
    ∀ (tok : Tokenizer) (ml : Nat) (p : ℚ) (draws : Nat → ℚ) (s : String) (i : Nat)
      (t : String),
      (tok.tokenize s)[i]? = some t → draws i < p → i < ml - 2 →
      (DatasetClass.mask_and_tokenize_sequence tok ml p draws s).2.2[i]?
          = some (tok.convert_tokens_to_ids t)
        ∧ (DatasetClass.mask_and_tokenize_sequence tok ml p draws s).1[i + 1]?
          = some (tok.convert_tokens_to_ids tok.mask_token) := by
  intro tok ml p draws s i t ht hm hlt
  constructor
  · rw [DatasetClass.mtk_labels_getElem?_lt tok ml p draws s i t ht, if_pos hm]
  · rw [DatasetClass.mtk_ids_getElem?_succ tok ml p draws s i t ht hlt, if_pos hm]

/-- Witness for C10 at a concrete input: token 0 of "M K" masked. -/
theorem claim_C10_witness :
    (DatasetClass.mask_and_tokenize_sequence toyTok 6 1 (fun _ => 0) "M K").2.2[0]?
        = some (toyTok.convert_tokens_to_ids "M")
      ∧ (DatasetClass.mask_and_tokenize_sequence toyTok 6 1 (fun _ => 0) "M K").1[0 + 1]?
        = some (toyTok.convert_tokens_to_ids toyTok.mask_token) :=
  claim_C10_shifted_alignment toyTok 6 1 (fun _ => 0) "M K" 0 "M" (by decide) (by decide)
    (by decide)

/-- Claim C4 counterexample: for a one-item batch whose global ids have
length 1 and local ids length 2, `DatasetClass.py`'s collator pads the
global id channel to the joint maximum 2 taken across the global and
local channels, not to that channel's own maximum 1 — refuting the
claim that a channel's second dimension equals its own per-channel
batch maximum. -/
theorem claim_C4_counterexample :
    ((DatasetClass.collate_fn
        [[("input_ids_global", [7]), ("attention_mask_global", [1]), ("labels_global", [-100]),
          ("input_ids_local", [7, 8]), ("attention_mask_local", [1, 1])]]).toOption.bind
      fun out => findVal "input_ids_global" out) = some [[7, 0]]
    ∧ Pretraining.max_len
        ([[("input_ids_global", [7]), ("attention_mask_global", [1]), ("labels_global", [-100]),
           ("input_ids_local", [7, 8]), ("attention_mask_local", [1, 1])]].filterMap
          fun item => findVal "input_ids_global" item) = 1
    ∧ (∀ row ∈ [([7, 0] : List Int)], row.length = 2)
    ∧ ¬ ((2 : Nat) = 1) :=
  ⟨rfl, rfl, by decide, by decide⟩

/-- Claim C4 (amended): in the pre-training collator every emitted
channel tensor is the `pad_sequence` stack of exactly that key's
contributing examples, so each row's length is the per-key batch
maximum; in the `DatasetClass.py` collator every row of every key is
instead padded to the single joint maximum over the global and local
`input_ids` lengths; in both, every position of a padded region holds
the fill value — 0 for id/mask channels, −100 for label channels. -/
theorem claim_C4_padded_dimensions :
    (∀ (batch : List Ex) (out : List (String × List (List Int))) (key : String)
        (rows : List (List Int)),
      Pretraining.collate_fn batch = Except.ok out → (key, rows) ∈ out →
        rows = Pretraining.pad_sequence
            (batch.filterMap fun item => findVal key item) (Pretraining.pt_fill key)
        ∧ ∀ row ∈ rows,
            row.length = Pretraining.max_len (batch.filterMap fun item => findVal key item))
    ∧ (∀ (batch : List Ex) (m : Nat) (out : List (String × List (List Int))) (key : String)
        (rows : List (List Int)),
      DatasetClass.dc_max_length batch = Except.ok m →
      DatasetClass.collate_fn batch = Except.ok out → (key, rows) ∈ out →
        ∀ row ∈ rows, row.length = m
          ∧ ∃ v, v.length ≤ m ∧ row = pad_to v m (DatasetClass.pad_fill key))
    ∧ (∀ (v : List Int) (m : Nat) (fill : Int) (i : Nat), v.length ≤ i → i < m →
        (pad_to v m fill)[i]? = some fill) := by
  refine ⟨?_, ?_, pad_to_getElem?_fill⟩
  · intro batch out key rows hok hmem
    obtain ⟨g, l, hg, hl, rfl⟩ := Pretraining.collate_fn_ok_iff.mp hok
    rcases List.mem_append.mp hmem with hm | hm
    · rcases Pretraining.collate_mode_mem hg hm with ⟨hk, hr⟩ | ⟨hk, hr⟩ | ⟨hk, hr⟩ <;>
        subst hk <;> subst hr <;>
        exact ⟨rfl, fun row hrow => Pretraining.pad_sequence_row_length hrow⟩
    · rcases Pretraining.collate_mode_mem hl hm with ⟨hk, hr⟩ | ⟨hk, hr⟩ | ⟨hk, hr⟩ <;>
        subst hk <;> subst hr <;>
        exact ⟨rfl, fun row hrow => Pretraining.pad_sequence_row_length hrow⟩
  · intro batch m out key rows hmax hok hmem row hrow
    simp only [DatasetClass.collate_fn] at hok
    rw [except_bind_ok] at hok
    obtain ⟨m0, hm0, hkeys⟩ := hok
    rw [hmax] at hm0
    have hmm : m = m0 := Except.ok.inj hm0
    subst hmm
    have hck := (DatasetClass.collateKeys_ok_spec DatasetClass.batch_keys out hkeys).2
      key rows hmem
    obtain ⟨v, hv, hrow2⟩ := (DatasetClass.collectKey_ok_rows batch rows hck).2 row hrow
    refine ⟨?_, v, hv, hrow2⟩
    rw [hrow2]
    exact pad_to_length v m _ hv

/-- Witness for C4 at a one-item batch carrying only the local
channel. -/
theorem claim_C4_witness :
    ([[(10 : Int)]] = Pretraining.pad_sequence
        ([[("input_ids_local", [10]), ("attention_mask_local", [1])]].filterMap
          fun item => findVal "input_ids_local" item) (Pretraining.pt_fill "input_ids_local"))
    ∧ ∀ row ∈ [[(10 : Int)]],
        row.length = Pretraining.max_len
          ([[("input_ids_local", [10]), ("attention_mask_local", [1])]].filterMap
            fun item => findVal "input_ids_local" item) :=
  claim_C4_padded_dimensions.1 [[("input_ids_local", [10]), ("attention_mask_local", [1])]]
    [("input_ids_local", [[10]]), ("attention_mask_local", [[1]])] "input_ids_local" [[10]]
    rfl (by decide)

/-- The collation outcome claim C5 asserts for a batch: collation
succeeds, a channel with zero contributing examples contributes no
output key at all, and an emitted id channel is the stack of exactly
its contributing examples. -/
def pt_partial_spec (batch : List Ex) : Prop :=
  (∃ out, Pretraining.collate_fn batch = Except.ok out)
  ∧ ∀ (out : List (String × List (List Int))),
      Pretraining.collate_fn batch = Except.ok out →
      ∀ mode ∈ Pretraining.collate_modes,
        ((batch.filterMap fun item => findVal ("input_ids_" ++ mode) item) = [] →
          ∀ k rows, (k, rows) ∈ out → k ≠ "input_ids_" ++ mode
            ∧ k ≠ "attention_mask_" ++ mode ∧ k ≠ "labels_" ++ mode)
        ∧ (∀ rows, ("input_ids_" ++ mode, rows) ∈ out →
            rows = Pretraining.pad_sequence
              (batch.filterMap fun item => findVal ("input_ids_" ++ mode) item) 0
            ∧ rows.length
              = (batch.filterMap fun item => findVal ("input_ids_" ++ mode) item).length)

/-- Claim C5: the pre-training collator accepts examples lacking a
channel entirely — whenever every item carrying a mode's id tensor also
carries its attention tensor, collation succeeds, each channel is
computed over only the examples containing it (one output row per
contributing example), and a channel with zero contributing examples is
omitted from the output batch entirely. -/
theorem claim_C5_partial_channels :
    ∀ batch : List Ex,
      (∀ item ∈ batch, ∀ mode ∈ Pretraining.collate_modes,
        (findVal ("input_ids_" ++ mode) item).isSome →
          (findVal ("attention_mask_" ++ mode) item).isSome) →
      pt_partial_spec batch := by
  intro batch hp
  have hg0 : ∀ item ∈ batch, (findVal ("input_ids_" ++ "global_masked") item).isSome →
      (findVal ("attention_mask_" ++ "global_masked") item).isSome :=
    fun item hit => hp item hit "global_masked" (by decide)
  have hl0 : ∀ item ∈ batch, (findVal ("input_ids_" ++ "local") item).isSome →
      (findVal ("attention_mask_" ++ "local") item).isSome :=
    fun item hit => hp item hit "local" (by decide)
  obtain ⟨g, hg⟩ := Pretraining.collate_mode_ok hg0
  obtain ⟨l, hl⟩ := Pretraining.collate_mode_ok hl0
  constructor
  · exact ⟨g ++ l, Pretraining.collate_fn_ok_iff.mpr ⟨g, l, hg, hl, rfl⟩⟩
  · intro out hout mode hmode
    obtain ⟨g2, l2, hg2, hl2, rfl⟩ := Pretraining.collate_fn_ok_iff.mp hout
    have hmode2 : mode = "global_masked" ∨ mode = "local" := by
      rcases List.mem_cons.mp hmode with hm | hm2
      · exact Or.inl hm
      · rcases List.mem_cons.mp hm2 with hm | hm3
        · exact Or.inr hm
        · exact absurd hm3 (List.not_mem_nil _)
    rcases hmode2 with rfl | rfl
    · constructor
      · intro hempty k rows hkm
        rw [Pretraining.collate_mode_empty hempty] at hg2
        cases hg2
        rw [List.nil_append] at hkm
        rcases Pretraining.collate_mode_mem hl2 hkm with ⟨hk, _⟩ | ⟨hk, _⟩ | ⟨hk, _⟩ <;>
          subst hk <;> exact ⟨by decide, by decide, by decide⟩
      · intro rows hkm
        rcases List.mem_append.mp hkm with hm | hm
        · rcases Pretraining.collate_mode_mem hg2 hm with ⟨hk, hr⟩ | ⟨hk, hr⟩ | ⟨hk, hr⟩
          · exact ⟨hr, by rw [hr]; exact Pretraining.pad_sequence_length _ _⟩
          · exact absurd hk (by decide)
          · exact absurd hk (by decide)
        · rcases Pretraining.collate_mode_mem hl2 hm with ⟨hk, hr⟩ | ⟨hk, hr⟩ | ⟨hk, hr⟩
          · exact absurd hk (by decide)
          · exact absurd hk (by decide)
          · exact absurd hk (by decide)
    · constructor
      · intro hempty k rows hkm
        rw [Pretraining.collate_mode_empty hempty] at hl2
        cases hl2
        rw [List.append_nil] at hkm
        rcases Pretraining.collate_mode_mem hg2 hkm with ⟨hk, _⟩ | ⟨hk, _⟩ | ⟨hk, _⟩ <;>
          subst hk <;> exact ⟨by decide, by decide, by decide⟩
      · intro rows hkm
        rcases List.mem_append.mp hkm with hm | hm
        · rcases Pretraining.collate_mode_mem hg2 hm with ⟨hk, hr⟩ | ⟨hk, hr⟩ | ⟨hk, hr⟩
          · exact absurd hk (by decide)
          · exact absurd hk (by decide)
          · exact absurd hk (by decide)
        · rcases Pretraining.collate_mode_mem hl2 hm with ⟨hk, hr⟩ | ⟨hk, hr⟩ | ⟨hk, hr⟩
          · exact ⟨hr, by rw [hr]; exact Pretraining.pad_sequence_length _ _⟩
          · exact absurd hk (by decide)
          · exact absurd hk (by decide)

/-- Witness for C5 at a two-item batch with partial channel presence:
the first item carries only the global-masked channel, the second both
channels. -/
theorem claim_C5_witness :
    pt_partial_spec
      [[("input_ids_global_masked", [10]), ("attention_mask_global_masked", [1]),
        ("labels_global_masked", [-100])],
       [("input_ids_global_masked", [11, 12]), ("attention_mask_global_masked", [1, 1]),
        ("labels_global_masked", [-100, -100]), ("input_ids_local", [5]),
        ("attention_mask_local", [1])]] :=
  claim_C5_partial_channels
    [[("input_ids_global_masked", [10]), ("attention_mask_global_masked", [1]),
      ("labels_global_masked", [-100])],
     [("input_ids_global_masked", [11, 12]), ("attention_mask_global_masked", [1, 1]),
      ("labels_global_masked", [-100, -100]), ("input_ids_local", [5]),
      ("attention_mask_local", [1])]]
    (by decide)

end ProteinInteraPredict
